import Mathlib

/-!
Verification of the ALVR telemetry / adaptive-bitrate core.

Shallow embedding of the three source files

* `alvr/client_core/src/statistics.rs` — client pipeline tracker
* `alvr/server/src/statistics.rs`      — server pipeline tracker
* `alvr/server/src/bitrate.rs`         — bitrate controller

`f32` values and `Duration`/`Instant` values are modelled as exact
rationals (`ℚ`); durations are seconds.  Rust `usize` subtraction is
modelled as a checked subtraction (`Option ℕ`): `none` is the arithmetic
underflow that panics in a debug build.  `Instant::now()` is passed in
explicitly as a parameter wherever the source calls it.  Event emission
(`alvr_events::send_event`) is external output and is not part of the
state; quantities that only feed events are still computed where they
matter to a claim.
-/

/-- Saturating subtraction on rationals, the model of
`Duration::saturating_sub` / `Instant::saturating_duration_since`. -/
def satSub (a b : ℚ) : ℚ := max (a - b) 0

/-- Checked `usize` subtraction: `none` models the debug-build panic on
underflow (`a - b` with `a < b`). -/
def checkedSub (a b : ℕ) : Option ℕ := if a < b then none else some (a - b)

/-- Rust `as u32` cast of an `i32` value (two's-complement wrap). -/
def i32ToU32 (v : ℤ) : ℕ := (v % (2 ^ 32)).toNat

/-- Rust `as usize` cast of an `i32` value (sign-extension then wrap to 64 bits). -/
def i32ToUsize (v : ℤ) : ℕ := (v % (2 ^ 64)).toNat

/-- Rust `as i32` cast of a `u32` value (two's-complement wrap). -/
def u32ToI32 (v : ℕ) : ℤ := ((v : ℤ) + 2 ^ 31) % 2 ^ 32 - 2 ^ 31

/-- Largest finite `f32`, the model of `f32::MAX`. -/
def f32Max : ℚ := 2 ^ 128 - 2 ^ 104

/-- Model of `settings_schema::Switch`: an optionally enabled feature value. -/
inductive Switch (α : Type) where
  | Enabled (val : α)
  | Disabled
deriving DecidableEq

/-- Model of `Switch::enabled()`. -/
def Switch.isEnabled {α : Type} : Switch α → Bool
  | .Enabled _ => true
  | .Disabled => false

/-- Modelled from the spec: `SlidingWindowAverage` lives in the external
`alvr_common` crate (the spec's "Windowed Average" leaf utility, explicitly
out of the implementation budget).  Per the spec contract:
`submit_sample(v)` records `v`, evicting the oldest sample once capacity is
exceeded; `get_average()` returns the arithmetic mean of retained samples,
or the configured seed value if empty; `retain(k)` truncates to the `k`
most recent samples.  Samples are stored newest first. -/
structure SlidingWindowAverage where
  initial : ℚ
  maxSize : ℕ
  samples : List ℚ
deriving DecidableEq

def SlidingWindowAverage.new (initial : ℚ) (maxSize : ℕ) : SlidingWindowAverage :=
  ⟨initial, maxSize, []⟩

def SlidingWindowAverage.submitSample (s : SlidingWindowAverage) (v : ℚ) :
    SlidingWindowAverage :=
  { s with samples := (v :: s.samples).take s.maxSize }

def SlidingWindowAverage.getAverage (s : SlidingWindowAverage) : ℚ :=
  if s.samples.isEmpty then s.initial else s.samples.sum / s.samples.length

def SlidingWindowAverage.retain (s : SlidingWindowAverage) (k : ℕ) :
    SlidingWindowAverage :=
  { s with samples := s.samples.take k }

/-- Model of `alvr_packets::ClientStatistics` (fields as read and written by the
two trackers; durations and `f32`s as `ℚ`, counters as `ℕ`,
`highest_rx_shard_index` as the `i32` it is subtracted as). -/
structure ClientStatistics where
  target_timestamp : ℚ
  frame_interval : ℚ
  video_decode : ℚ
  video_decoder_queue : ℚ
  rendering : ℚ
  vsync_queue : ℚ
  total_pipeline_latency : ℚ
  jitter_avg_frame : ℚ
  frame_span : ℚ
  frame_interarrival : ℚ
  rx_bytes : ℕ
  bytes_in_frame : ℕ
  bytes_in_frame_app : ℕ
  filtered_ow_delay : ℚ
  rx_shard_counter : ℕ
  duplicated_shard_counter : ℕ
  highest_rx_frame_index : ℕ
  highest_rx_shard_index : ℤ
  frames_skipped : ℕ
  frames_dropped : ℕ
deriving DecidableEq

/-- Model of `ClientStatistics::default()`. -/
def ClientStatistics.zero : ClientStatistics :=
  ⟨0, 0, 0, 0, 0, 0, 0, 0, 0, 0, 0, 0, 0, 0, 0, 0, 0, 0, 0, 0⟩

/-- Model of `crate::connection::VideoStatsRx` (fields as merged by
`report_video_statistics`). -/
structure VideoStatsRx where
  jitter_avg_frame : ℚ
  frame_span : ℚ
  frame_interarrival : ℚ
  rx_bytes : ℕ
  bytes_in_frame : ℕ
  bytes_in_frame_app : ℕ
  filtered_ow_delay : ℚ
  rx_shard_counter : ℕ
  duplicated_shard_counter : ℕ
  highest_rx_frame_index : ℕ
  highest_rx_shard_index : ℤ
  frames_skipped : ℕ
  frames_dropped : ℕ
deriving DecidableEq

/-- Generic "find the first matching element and rewrite it" helper, the
model of `iter_mut().find(p)` followed by a field update; also returns the
rewritten element so that operations can act on it (`Option` is `none`
when no element matched). -/
def updateFirstWith {α : Type} (p : α → Bool) (f : α → α) : List α → List α × Option α
  | [] => ([], none)
  | a :: rest =>
    if p a then (f a :: rest, some (f a))
    else
      let r := updateFirstWith p f rest
      (a :: r.1, r.2)

/-- The insert-if-absent / evict-oldest pattern shared by
`report_input_acquired` (client) and `report_tracking_received` (server):
push a fresh entry at the front when no entry has key `ts`, then drop the
back entry when the length exceeds `maxSize`. -/
def ringEvict {α : Type} (maxSize : ℕ) (l : List α) : List α :=
  if l.length > maxSize then l.dropLast else l

/-- The insert-if-absent step of the creation pattern; see `ringEvict` for
the eviction step (`if len > max { pop_back() }`) that follows it. -/
def ringCreate {α : Type} (keyOf : α → ℚ) (ts : ℚ) (mk : α) (maxSize : ℕ)
    (l : List α) : List α :=
  ringEvict maxSize (if l.any fun a => decide (keyOf a = ts) then l else mk :: l)

/-! Section: Client pipeline tracker (`alvr/client_core/src/statistics.rs`) -/

/-- Client-side `HistoryFrame`. -/
structure ClientHistoryFrame where
  input_acquired : ℚ
  video_packet_received : ℚ
  client_stats : ClientStatistics
deriving DecidableEq

/-- The ring-buffer key of a client history frame. -/
def clientFrameKey (f : ClientHistoryFrame) : ℚ := f.client_stats.target_timestamp

/-- Client-side `StatisticsManager`.  `history_buffer` and
`stats_history_buffer` are `VecDeque`s with the front at the list head. -/
structure ClientStatisticsManager where
  history_buffer : List ClientHistoryFrame
  max_history_size : ℕ
  prev_vsync : ℚ
  total_pipeline_latency_average : SlidingWindowAverage
  steamvr_pipeline_latency : ℚ
  stats_history_buffer : List ClientHistoryFrame
deriving DecidableEq

/-- Client `StatisticsManager::new`. -/
def ClientStatisticsManager.new (max_history_size : ℕ)
    (nominal_server_frame_interval steamvr_pipeline_frames now : ℚ) :
    ClientStatisticsManager where
  history_buffer := []
  max_history_size := max_history_size
  prev_vsync := now
  total_pipeline_latency_average := SlidingWindowAverage.new 0 max_history_size
  steamvr_pipeline_latency := steamvr_pipeline_frames * nominal_server_frame_interval
  stats_history_buffer := []

/-- Client `report_input_acquired`. -/
def reportInputAcquired (s : ClientStatisticsManager) (ts now : ℚ) :
    ClientStatisticsManager :=
  let fresh : ClientHistoryFrame :=
    ⟨now, now, { ClientStatistics.zero with target_timestamp := ts }⟩
  { s with history_buffer :=
      ringCreate clientFrameKey ts fresh s.max_history_size s.history_buffer }

/-- Client `report_video_packet_received`. -/
def reportVideoPacketReceived (s : ClientStatisticsManager) (ts now : ℚ) :
    ClientStatisticsManager :=
  { s with history_buffer :=
      (updateFirstWith (fun f => decide (clientFrameKey f = ts))
        (fun f => { f with video_packet_received := now }) s.history_buffer).1 }

/-- The field merge done by `report_video_statistics`. -/
def mergeVideoStats (vs : VideoStatsRx) (f : ClientHistoryFrame) : ClientHistoryFrame :=
  { f with client_stats :=
      { f.client_stats with
        jitter_avg_frame := vs.jitter_avg_frame
        frame_span := vs.frame_span
        frame_interarrival := vs.frame_interarrival
        rx_bytes := vs.rx_bytes
        bytes_in_frame := vs.bytes_in_frame
        bytes_in_frame_app := vs.bytes_in_frame_app
        filtered_ow_delay := vs.filtered_ow_delay
        rx_shard_counter := vs.rx_shard_counter
        duplicated_shard_counter := vs.duplicated_shard_counter
        highest_rx_frame_index := vs.highest_rx_frame_index
        highest_rx_shard_index := vs.highest_rx_shard_index
        frames_skipped := vs.frames_skipped
        frames_dropped := vs.frames_dropped } }

/-- Client `report_video_statistics`: merge the transport counters into the
matching entry and, on success, push a snapshot of the merged frame to the
back of the completed-record queue. -/
def reportVideoStatistics (s : ClientStatisticsManager) (ts : ℚ) (vs : VideoStatsRx) :
    ClientStatisticsManager :=
  match (updateFirstWith (fun f => decide (clientFrameKey f = ts))
      (mergeVideoStats vs) s.history_buffer).2 with
  | some f =>
    { s with history_buffer := (updateFirstWith (fun f => decide (clientFrameKey f = ts))
               (mergeVideoStats vs) s.history_buffer).1
             stats_history_buffer := s.stats_history_buffer ++ [f] }
  | none =>
    { s with history_buffer := (updateFirstWith (fun f => decide (clientFrameKey f = ts))
               (mergeVideoStats vs) s.history_buffer).1 }

/-- Client `report_frame_decoded`. -/
def reportFrameDecoded (s : ClientStatisticsManager) (ts now : ℚ) :
    ClientStatisticsManager :=
  { s with history_buffer :=
      (updateFirstWith (fun f => decide (clientFrameKey f = ts))
        (fun f => { f with client_stats :=
          { f.client_stats with
            video_decode := satSub now f.video_packet_received } }) s.history_buffer).1 }

/-- Client `report_compositor_start`. -/
def reportCompositorStart (s : ClientStatisticsManager) (ts now : ℚ) :
    ClientStatisticsManager :=
  { s with history_buffer :=
      (updateFirstWith (fun f => decide (clientFrameKey f = ts))
        (fun f => { f with client_stats :=
          { f.client_stats with
            video_decoder_queue :=
              satSub now (f.video_packet_received + f.client_stats.video_decode) } })
        s.history_buffer).1 }

/-- The per-frame updates of `report_submit`. -/
def submitFrameUpdate (now vsync_queue : ℚ) (f : ClientHistoryFrame) :
    ClientHistoryFrame :=
  { f with client_stats :=
      { f.client_stats with
        rendering := satSub now
          (f.video_packet_received + f.client_stats.video_decode
            + f.client_stats.video_decoder_queue)
        vsync_queue := vsync_queue
        total_pipeline_latency := satSub now f.input_acquired + vsync_queue } }

/-- Client `report_submit`: updates the frame's stage durations and, when
the frame exists, submits the total pipeline latency to the average and
advances the previous-vsync marker. -/
def submitFrameFull (s : ClientStatisticsManager) (now vsync_queue : ℚ)
    (f : ClientHistoryFrame) : ClientHistoryFrame :=
  let f := submitFrameUpdate now vsync_queue f
  { f with client_stats :=
      { f.client_stats with
        frame_interval := satSub (now + vsync_queue) s.prev_vsync } }

/-- Client `report_submit`, continued: the per-manager updates happen only
when the frame was found. -/
def reportSubmit (s : ClientStatisticsManager) (ts vsync_queue now : ℚ) :
    ClientStatisticsManager :=
  match (updateFirstWith (fun f => decide (clientFrameKey f = ts))
      (submitFrameFull s now vsync_queue) s.history_buffer).2 with
  | some f =>
    { s with history_buffer := (updateFirstWith (fun f => decide (clientFrameKey f = ts))
               (submitFrameFull s now vsync_queue) s.history_buffer).1
             total_pipeline_latency_average :=
               s.total_pipeline_latency_average.submitSample
                 f.client_stats.total_pipeline_latency
             prev_vsync := now + vsync_queue }
  | none =>
    { s with history_buffer := (updateFirstWith (fun f => decide (clientFrameKey f = ts))
               (submitFrameFull s now vsync_queue) s.history_buffer).1 }

/-- Remove the first entry of the completed-record queue whose key is `ts`
and return its record: the model of `position` + `VecDeque::remove`. -/
def removeFirst (ts : ℚ) : List ClientHistoryFrame →
    Option ClientStatistics × List ClientHistoryFrame
  | [] => (none, [])
  | f :: rest =>
    if clientFrameKey f = ts then (some f.client_stats, rest)
    else
      let r := removeFirst ts rest
      (r.1, f :: r.2)

/-- Client `summary(ts)`: pop-and-return of a completed record. -/
def summary (s : ClientStatisticsManager) (ts : ℚ) :
    Option ClientStatistics × ClientStatisticsManager :=
  ((removeFirst ts s.stats_history_buffer).1,
   { s with stats_history_buffer := (removeFirst ts s.stats_history_buffer).2 })

/-- One client-side tracker operation; every `Instant::now()` the source
would take is an explicit parameter. -/
inductive ClientOp where
  | inputAcquired (ts now : ℚ)
  | videoPacketReceived (ts now : ℚ)
  | videoStatistics (ts : ℚ) (vs : VideoStatsRx)
  | frameDecoded (ts now : ℚ)
  | compositorStart (ts now : ℚ)
  | submit (ts vsync_queue now : ℚ)
  | summaryPull (ts : ℚ)

/-- Client-side operational step. -/
def clientStep (op : ClientOp) (s : ClientStatisticsManager) :
    ClientStatisticsManager :=
  match op with
  | .inputAcquired ts now => reportInputAcquired s ts now
  | .videoPacketReceived ts now => reportVideoPacketReceived s ts now
  | .videoStatistics ts vs => reportVideoStatistics s ts vs
  | .frameDecoded ts now => reportFrameDecoded s ts now
  | .compositorStart ts now => reportCompositorStart s ts now
  | .submit ts vq now => reportSubmit s ts vq now
  | .summaryPull ts => (summary s ts).2

/-- Run a sequence of client operations. -/
def clientRun : List ClientOp → ClientStatisticsManager → ClientStatisticsManager
  | [], s => s
  | op :: ops, s => clientRun ops (clientStep op s)

/-! Section: Server pipeline tracker (`alvr/server/src/statistics.rs`) -/

/-- Server-side `HistoryFrame`. -/
structure ServerHistoryFrame where
  target_timestamp : ℚ
  tracking_received : ℚ
  frame_present : ℚ
  frame_composed : ℚ
  frame_encoded : ℚ
  video_packet_bytes : ℕ
  total_pipeline_latency : ℚ
  frame_index : ℕ
  is_idr : Bool
deriving DecidableEq

/-- The ring-buffer key of a server history frame. -/
def serverFrameKey (f : ServerHistoryFrame) : ℚ := f.target_timestamp

/-- Server `HistoryFrame::default()` (all instants are the current time,
counters zero). -/
def ServerHistoryFrame.default (now : ℚ) : ServerHistoryFrame :=
  ⟨0, now, now, now, now, 0, 0, 0, false⟩

/-- Model of `BatteryData`. -/
structure BatteryData where
  gauge_value : ℚ
  is_plugged : Bool
deriving DecidableEq

/-- Model of `NominalBitrateStats`. -/
structure NominalBitrateStats where
  scaled_calculated_bps : Option ℚ
  decoder_latency_limiter_bps : Option ℚ
  network_latency_limiter_bps : Option ℚ
  encoder_latency_limiter_bps : Option ℚ
  manual_max_bps : Option ℚ
  manual_min_bps : Option ℚ
  requested_bps : ℚ
deriving DecidableEq

/-- Model of `NominalBitrateStats::default()`. -/
def NominalBitrateStats.zero : NominalBitrateStats :=
  ⟨none, none, none, none, none, none, 0⟩

/-- Model of `FULL_REPORT_INTERVAL` (500 ms), in seconds. -/
def FULL_REPORT_INTERVAL : ℚ := 1 / 2

/-- Server-side `StatisticsManager`.  The two `HashMap`s are association
lists (`battery_gauges` keyed by device id, `map_frames_spf` keyed by
frame index). -/
structure ServerStatisticsManager where
  history_buffer : List ServerHistoryFrame
  max_history_size : ℕ
  last_full_report_instant : ℚ
  last_frame_present_instant : ℚ
  last_frame_present_interval : ℚ
  video_packets_total : ℕ
  video_packets_partial_sum : ℕ
  video_bytes_total : ℕ
  video_bytes_partial_sum : ℕ
  packets_lost_total : ℕ
  packets_lost_partial_sum : ℕ
  battery_gauges : List (ℕ × BatteryData)
  steamvr_pipeline_latency : ℚ
  total_pipeline_latency_average : SlidingWindowAverage
  last_vsync_time : ℚ
  frame_interval : ℚ
  last_nominal_bitrate_stats : NominalBitrateStats
  map_frames_spf : List (ℕ × ℕ)
  prev_highest_shard : ℤ
  prev_highest_frame : ℤ
deriving DecidableEq

/-- Server `StatisticsManager::new`. -/
def ServerStatisticsManager.new (max_history_size : ℕ)
    (nominal_server_frame_interval steamvr_pipeline_frames now : ℚ) :
    ServerStatisticsManager where
  history_buffer := []
  max_history_size := max_history_size
  last_full_report_instant := now
  last_frame_present_instant := now
  last_frame_present_interval := 0
  video_packets_total := 0
  video_packets_partial_sum := 0
  video_bytes_total := 0
  video_bytes_partial_sum := 0
  packets_lost_total := 0
  packets_lost_partial_sum := 0
  battery_gauges := []
  steamvr_pipeline_latency := steamvr_pipeline_frames * nominal_server_frame_interval
  total_pipeline_latency_average := SlidingWindowAverage.new 0 max_history_size
  last_vsync_time := now
  frame_interval := nominal_server_frame_interval
  last_nominal_bitrate_stats := NominalBitrateStats.zero
  map_frames_spf := []
  prev_highest_shard := -1
  prev_highest_frame := -1

/-- Server `report_tracking_received`. -/
def reportTrackingReceived (s : ServerStatisticsManager) (ts now : ℚ) :
    ServerStatisticsManager :=
  let fresh : ServerHistoryFrame :=
    { ServerHistoryFrame.default now with target_timestamp := ts, tracking_received := now }
  { s with history_buffer :=
      ringCreate serverFrameKey ts fresh s.max_history_size s.history_buffer }

/-- Server `report_frame_present`. -/
def serverReportFramePresent (s : ServerStatisticsManager) (ts offset now : ℚ) :
    ServerStatisticsManager :=
  match (updateFirstWith (fun f => decide (serverFrameKey f = ts))
      (fun f => { f with frame_present := now - offset }) s.history_buffer).2 with
  | some _ =>
    { s with history_buffer := (updateFirstWith (fun f => decide (serverFrameKey f = ts))
               (fun f => { f with frame_present := now - offset }) s.history_buffer).1
             last_frame_present_interval :=
               satSub (now - offset) s.last_frame_present_instant
             last_frame_present_instant := now - offset }
  | none =>
    { s with history_buffer := (updateFirstWith (fun f => decide (serverFrameKey f = ts))
               (fun f => { f with frame_present := now - offset }) s.history_buffer).1 }

/-- Server `report_frame_composed`. -/
def reportFrameComposed (s : ServerStatisticsManager) (ts offset now : ℚ) :
    ServerStatisticsManager :=
  { s with history_buffer :=
      (updateFirstWith (fun f => decide (serverFrameKey f = ts))
        (fun f => { f with frame_composed := now - offset }) s.history_buffer).1 }

/-- Server `report_frame_encoded` (the returned compose→encode duration is
dropped by the operational step; the counter updates happen first and
unconditionally). -/
def serverReportFrameEncoded (s : ServerStatisticsManager) (ts : ℚ)
    (bytes_count : ℕ) (is_idr : Bool) (now : ℚ) : ServerStatisticsManager :=
  let s := { s with
    video_packets_total := s.video_packets_total + 1
    video_packets_partial_sum := s.video_packets_partial_sum + 1
    video_bytes_total := s.video_bytes_total + bytes_count
    video_bytes_partial_sum := s.video_bytes_partial_sum + bytes_count }
  { s with history_buffer :=
      (updateFirstWith (fun f => decide (serverFrameKey f = ts))
        (fun f => { f with frame_encoded := now, video_packet_bytes := bytes_count,
                           is_idr := is_idr }) s.history_buffer).1 }

/-- Server `report_packet_loss`. -/
def reportPacketLoss (s : ServerStatisticsManager) : ServerStatisticsManager :=
  { s with packets_lost_total := s.packets_lost_total + 1
           packets_lost_partial_sum := s.packets_lost_partial_sum + 1 }

/-- Insert-or-overwrite into an association list
(`HashMap::entry(..).or_default()` assignment / `HashMap::insert`). -/
def assocInsert {β : Type} (k : ℕ) (v : β) : List (ℕ × β) → List (ℕ × β)
  | [] => [(k, v)]
  | (k', v') :: rest =>
    if k' = k then (k, v) :: rest else (k', v') :: assocInsert k v rest

/-- Association-list lookup (`HashMap::get`). -/
def assocGet {β : Type} (m : List (ℕ × β)) (k : ℕ) : Option β :=
  (m.find? fun e => decide (e.1 = k)).map Prod.snd

/-- Server `report_battery`. -/
def reportBattery (s : ServerStatisticsManager) (device_id : ℕ) (gauge_value : ℚ)
    (is_plugged : Bool) : ServerStatisticsManager :=
  { s with battery_gauges := assocInsert device_id ⟨gauge_value, is_plugged⟩ s.battery_gauges }

/-- Server `report_nominal_bitrate_stats`. -/
def reportNominalBitrateStats (s : ServerStatisticsManager)
    (stats : NominalBitrateStats) : ServerStatisticsManager :=
  { s with last_nominal_bitrate_stats := stats }

/-- Server `report_frame_sent`. -/
def reportFrameSent (s : ServerStatisticsManager) (ts : ℚ) (frame_sent_id : ℕ)
    (spf : ℕ) : ServerStatisticsManager :=
  { s with history_buffer := (updateFirstWith (fun f => decide (serverFrameKey f = ts))
             (fun f => { f with frame_index := frame_sent_id }) s.history_buffer).1
           map_frames_spf := assocInsert frame_sent_id spf s.map_frames_spf }

/-- The shard-loss reconstruction block of `report_statistics`
(`statistics.rs` lines 313–354).  Inputs are the accounting state
(`prev_highest_frame`, `prev_highest_shard`, `map_frames_spf`) and the
client report; the result is
`(shard_loss_server, shards_sent, prev_highest_frame', prev_highest_shard',
map_frames_spf')`, or `none` when a `usize` subtraction underflows (a
panic in a debug build).  `usize` sums are not bounded (they cannot
realistically reach `2^64`), and `i32` subtraction is exact. -/
def shardCalc (prevFrame prevShard : ℤ) (m : List (ℕ × ℕ))
    (cs : ClientStatistics) : Option (ℕ × ℕ × ℤ × ℤ × List (ℕ × ℕ)) :=
  if prevFrame = u32ToI32 cs.highest_rx_frame_index then
    -- same-frame branch: shards sent is the shard-index advance (0 if none)
    let d : ℕ × ℤ :=
      if prevShard < cs.highest_rx_shard_index then
        ((cs.highest_rx_shard_index - prevShard).toNat, cs.highest_rx_shard_index)
      else (0, prevShard)
    match checkedSub d.1 cs.rx_shard_counter with
    | none => none
    | some loss => some (loss, d.1, prevFrame, d.2, m)
  else if prevFrame < u32ToI32 cs.highest_rx_frame_index then
    -- new-higher-frame branch
    let shardsFromPrev? : Option ℕ :=
      match assocGet m (i32ToU32 prevFrame) with
      | some shards_count_prev => checkedSub shards_count_prev (i32ToUsize (prevShard - 1))
      | none => some 0
    match shardsFromPrev? with
    | none => none
    | some shards_from_prev =>
      let shards_from_inbetween : ℕ :=
        ((m.filter fun e =>
            decide (i32ToU32 prevFrame < e.1) &&
            decide (e.1 < cs.highest_rx_frame_index)).map Prod.snd).sum
      let shards_from_actual : ℕ := i32ToUsize cs.highest_rx_shard_index + 1
      let shards_sent : ℕ := shards_from_prev + shards_from_inbetween + shards_from_actual
      match checkedSub shards_sent cs.rx_shard_counter with
      | none => none
      | some loss =>
        let newFrame : ℤ := u32ToI32 cs.highest_rx_frame_index
        some (loss, shards_sent, newFrame, cs.highest_rx_shard_index,
          m.filter fun e => !decide (e.1 < i32ToU32 newFrame))
  else
    -- the frame index went backwards: both branches skipped, loss stays 0
    some (0, 0, prevFrame, prevShard, m)

/-- Server `report_statistics` (`statistics.rs` lines 201–399).  Returns
`none` when the shard-loss reconstruction underflows (a panic in a debug
build), otherwise `some ((network_latency, game_time_latency), s')`.
Quantities that only feed the emitted summary / graph events are bound
with underscore names. -/
def reportStatistics (s : ServerStatisticsManager) (cs : ClientStatistics)
    (now : ℚ) : Option ((ℚ × ℚ) × ServerStatisticsManager) :=
  match (updateFirstWith (fun f => decide (serverFrameKey f = cs.target_timestamp))
      (fun f => { f with total_pipeline_latency := cs.total_pipeline_latency })
      s.history_buffer).2 with
  | none => some ((0, 0), s)
  | some frame =>
    let s := { s with history_buffer :=
      (updateFirstWith (fun f => decide (serverFrameKey f = cs.target_timestamp))
        (fun f => { f with total_pipeline_latency := cs.total_pipeline_latency })
        s.history_buffer).1 }
    let game_time_latency := satSub frame.frame_present frame.tracking_received
    let server_compositor_latency := satSub frame.frame_composed frame.frame_present
    let encoder_latency := satSub frame.frame_encoded frame.frame_composed
    let network_latency := satSub frame.total_pipeline_latency
      (game_time_latency + server_compositor_latency + encoder_latency
        + cs.video_decode + cs.video_decoder_queue + cs.rendering + cs.vsync_queue)
    let _client_fps : ℚ := 1 / max cs.frame_interval (1 / 1000)
    let _server_fps : ℚ := 1 / max s.last_frame_present_interval (1 / 1000)
    -- 500 ms cadence: emit the summary event (external) and reset the
    -- interval accumulators, advancing the marker by a fixed increment
    let s :=
      if s.last_full_report_instant + FULL_REPORT_INTERVAL < now then
        { s with last_full_report_instant := s.last_full_report_instant + FULL_REPORT_INTERVAL
                 video_packets_partial_sum := 0
                 video_bytes_partial_sum := 0
                 packets_lost_partial_sum := 0 }
      else s
    -- per-frame throughput figures (graph event only), every division
    -- guarded by a zero check
    let _bitrate_bps : ℚ :=
      if network_latency ≠ 0 then frame.video_packet_bytes * 8 / network_latency else 0
    let _network_throughput_bps : ℚ :=
      if cs.frame_interarrival ≠ 0 then cs.rx_bytes * 8 / cs.frame_interarrival else 0
    let _peak_network_throughput_bps : ℚ :=
      if cs.frame_span ≠ 0 then cs.bytes_in_frame * 8 / cs.frame_span else 0
    let _application_throughput_bps : ℚ :=
      if cs.frame_interarrival ≠ 0 then cs.bytes_in_frame_app * 8 / cs.frame_interarrival else 0
    match shardCalc s.prev_highest_frame s.prev_highest_shard s.map_frames_spf cs with
    | none => none
    | some sc =>
      some ((network_latency, game_time_latency),
        { s with prev_highest_frame := sc.2.2.1
                 prev_highest_shard := sc.2.2.2.1
                 map_frames_spf := sc.2.2.2.2 })

/-- One server-side tracker operation. -/
inductive ServerOp where
  | trackingReceived (ts now : ℚ)
  | framePresent (ts offset now : ℚ)
  | frameComposed (ts offset now : ℚ)
  | frameEncoded (ts : ℚ) (bytes_count : ℕ) (is_idr : Bool) (now : ℚ)
  | packetLoss
  | battery (device_id : ℕ) (gauge_value : ℚ) (is_plugged : Bool)
  | nominalBitrateStats (stats : NominalBitrateStats)
  | statistics (cs : ClientStatistics) (now : ℚ)
  | frameSent (ts : ℚ) (frame_sent_id : ℕ) (spf : ℕ)

/-- Server-side operational step; `none` propagates a panic. -/
def serverStep (op : ServerOp) (s : ServerStatisticsManager) :
    Option ServerStatisticsManager :=
  match op with
  | .trackingReceived ts now => some (reportTrackingReceived s ts now)
  | .framePresent ts offset now => some (serverReportFramePresent s ts offset now)
  | .frameComposed ts offset now => some (reportFrameComposed s ts offset now)
  | .frameEncoded ts b idr now => some (serverReportFrameEncoded s ts b idr now)
  | .packetLoss => some (reportPacketLoss s)
  | .battery d g p => some (reportBattery s d g p)
  | .nominalBitrateStats st => some (reportNominalBitrateStats s st)
  | .statistics cs now => (reportStatistics s cs now).map Prod.snd
  | .frameSent ts id spf => some (reportFrameSent s ts id spf)

/-- Run a sequence of server operations, stopping at a panic. -/
def serverRun : List ServerOp → ServerStatisticsManager →
    Option ServerStatisticsManager
  | [], s => some s
  | op :: ops, s =>
    match serverStep op s with
    | some s' => serverRun ops s'
    | none => none

/-! Section: Bitrate controller (`alvr/server/src/bitrate.rs`) -/

/-- Model of `UPDATE_INTERVAL` (1 s). -/
def UPDATE_INTERVAL : ℚ := 1

/-- Model of `BitrateAdaptiveFramerateConfig`. -/
structure BitrateAdaptiveFramerateConfig where
  framerate_reset_threshold_multiplier : ℚ
deriving DecidableEq

/-- The `encoder_latency_limiter` configuration of the adaptive mode. -/
structure EncoderLatencyLimiterConfig where
  max_saturation_multiplier : ℚ
deriving DecidableEq

/-- The `decoder_latency_limiter` configuration of the adaptive mode. -/
structure DecoderLatencyLimiterConfig where
  max_decoder_latency_ms : ℕ
  latency_overstep_frames : ℕ
  latency_overstep_multiplier : ℚ
deriving DecidableEq

/-- Model of `BitrateMode` (fields in source order; fields the code never reads are
omitted). -/
inductive BitrateMode where
  | ConstantMbps (bitrate_mbps : ℕ)
  | SimpleHeuristic
      (max_bitrate_mbps min_bitrate_mbps : Switch ℚ)
      (steps_mbps capacity_multiplier threshold_random_uniform
        fps_threshold_multiplier multiplier_rtt_threshold
        update_interval_heuristic : ℚ)
  | Adaptive
      (saturation_multiplier : ℚ)
      (max_bitrate_mbps min_bitrate_mbps : Switch ℚ)
      (max_network_latency_ms : Switch ℚ)
      (encoder_latency_limiter : Switch EncoderLatencyLimiterConfig)
      (decoder_latency_limiter : Switch DecoderLatencyLimiterConfig)
deriving DecidableEq

/-- Model of `BitrateConfig`. -/
structure BitrateConfig where
  mode : BitrateMode
  adapt_to_framerate : Switch BitrateAdaptiveFramerateConfig
deriving DecidableEq

/-- Model of `HeuristicStats`. -/
structure HeuristicStats where
  frame_interval_s : ℚ
  server_fps : ℚ
  steps_bps : ℚ
  network_heur_fps : ℚ
  rtt_avg_heur_s : ℚ
  random_prob : ℚ
  threshold_fps : ℚ
  threshold_rtt_s : ℚ
  threshold_u : ℚ
  requested_bitrate_bps : ℚ
deriving DecidableEq

/-- Model of `HeuristicStats::default()`. -/
def HeuristicStats.zero : HeuristicStats := ⟨0, 0, 0, 0, 0, 0, 0, 0, 0, 0⟩

/-- Model of `FfiDynamicEncoderParams` (`bitrate_bps` is the `u64` the `f32` is
cast to: truncation toward zero, negative values clamp to zero). -/
structure FfiDynamicEncoderParams where
  updated : ℕ
  bitrate_bps : ℕ
  framerate : ℚ
deriving DecidableEq

/-- Model of `BitrateManager`. -/
structure BitrateManager where
  nominal_frame_interval : ℚ
  frame_interval_average : SlidingWindowAverage
  packet_sizes_bits_history : List (ℚ × ℕ)
  encoder_latency_average : SlidingWindowAverage
  network_latency_average : SlidingWindowAverage
  bitrate_average : SlidingWindowAverage
  decoder_latency_overstep_count : ℕ
  last_frame_instant : ℚ
  last_update_instant : ℚ
  dynamic_max_bitrate : ℚ
  previous_config : Option BitrateConfig
  update_needed : Bool
  last_target_bitrate : ℚ
  frame_interarrival_average : SlidingWindowAverage
  rtt_average : SlidingWindowAverage
  update_interval_setting : ℚ
  heur_stats : HeuristicStats
  peak_throughput_average : SlidingWindowAverage
deriving DecidableEq

/-- Model of `BitrateManager::new`. -/
def BitrateManager.new (max_history_size : ℕ)
    (initial_framerate initial_bitrate now : ℚ) : BitrateManager where
  nominal_frame_interval := 1 / initial_framerate
  frame_interval_average := SlidingWindowAverage.new (16 / 1000) max_history_size
  packet_sizes_bits_history := []
  encoder_latency_average := SlidingWindowAverage.new (5 / 1000) max_history_size
  network_latency_average := SlidingWindowAverage.new (5 / 1000) max_history_size
  bitrate_average := SlidingWindowAverage.new (initial_bitrate * 1000000) max_history_size
  decoder_latency_overstep_count := 0
  last_frame_instant := now
  last_update_instant := now
  dynamic_max_bitrate := f32Max
  previous_config := none
  update_needed := true
  last_target_bitrate := initial_bitrate * 1000000
  frame_interarrival_average := SlidingWindowAverage.new (1 / initial_framerate) max_history_size
  rtt_average := SlidingWindowAverage.new (5 / 1000) max_history_size
  update_interval_setting := UPDATE_INTERVAL
  heur_stats := HeuristicStats.zero
  peak_throughput_average := SlidingWindowAverage.new 300000000 max_history_size

/-- The front-only drain of `packet_sizes_bits_history` inside
`report_frame_latencies` (`bitrate.rs` lines 150–161): pop entries from
the front until one with the exact reported timestamp is found — that one
yields one achieved-bitrate sample and is popped too — or the queue is
exhausted. -/
def drainPacketHistory (timestamp network_latency : ℚ) :
    List (ℚ × ℕ) → SlidingWindowAverage → List (ℚ × ℕ) × SlidingWindowAverage
  | [], avg => ([], avg)
  | (timestamp_, size_bits) :: rest, avg =>
    if timestamp_ = timestamp then
      (rest, avg.submitSample ((size_bits : ℚ) / network_latency))
    else drainPacketHistory timestamp network_latency rest avg

/-- Model of `report_frame_latencies` (`bitrate.rs` lines 138–184). -/
def reportFrameLatencies (s : BitrateManager) (config : BitrateMode)
    (timestamp network_latency decoder_latency : ℚ) : BitrateManager :=
  if network_latency = 0 then s
  else
    let s := { s with network_latency_average :=
      s.network_latency_average.submitSample network_latency }
    let d := drainPacketHistory timestamp network_latency
      s.packet_sizes_bits_history s.bitrate_average
    let s := { s with packet_sizes_bits_history := d.1, bitrate_average := d.2 }
    match config with
    | .Adaptive _ _ _ _ _ (.Enabled dlconfig) =>
      if decoder_latency > (dlconfig.max_decoder_latency_ms : ℚ) / 1000 then
        let s := { s with decoder_latency_overstep_count :=
          s.decoder_latency_overstep_count + 1 }
        if s.decoder_latency_overstep_count = dlconfig.latency_overstep_frames then
          { s with dynamic_max_bitrate :=
                     min s.bitrate_average.getAverage s.dynamic_max_bitrate
                       * dlconfig.latency_overstep_multiplier
                   update_needed := true
                   decoder_latency_overstep_count := 0 }
        else s
      else { s with decoder_latency_overstep_count := 0 }
    | _ => s

/-- Model of `round_down_to_nearest_multiple` (local function of the
simple-heuristic branch). -/
def round_down_to_nearest_multiple (value step : ℚ) : ℚ :=
  ⌊value / step⌋ * step

/-- Model of `minmax_bitrate` (local function of the simple-heuristic branch). -/
def minmax_bitrate (bitrate_bps : ℚ)
    (max_bitrate_mbps min_bitrate_mbps : Switch ℚ) : ℚ :=
  let b := match max_bitrate_mbps with
    | .Enabled mx => min bitrate_bps (mx * 1000000)
    | .Disabled => bitrate_bps
  match min_bitrate_mbps with
  | .Enabled mn => max b (mn * 1000000)
  | .Disabled => b

/-- The stochastic step decision of the simple-heuristic branch
(`bitrate.rs` lines 288–300): `random_prob` is the uniform draw. -/
def heuristicStepDecision (bitrate_bps steps_bps fps_heur threshold_fps
    rtt_avg_heur threshold_rtt random_prob threshold_random_uniform : ℚ) : ℚ :=
  if threshold_fps ≤ fps_heur then
    if threshold_rtt < rtt_avg_heur then
      if threshold_random_uniform ≤ random_prob then bitrate_bps - steps_bps
      else bitrate_bps
    else
      if random_prob ≤ threshold_random_uniform then bitrate_bps + steps_bps
      else bitrate_bps
  else bitrate_bps - steps_bps

/-- The simple-heuristic branch of `get_encoder_params` (`bitrate.rs`
lines 235–345): returns the requested bitrate and the recorded
`HeuristicStats`. -/
def simpleHeuristicBitrate (s : BitrateManager)
    (max_bitrate_mbps min_bitrate_mbps : Switch ℚ)
    (steps_mbps capacity_multiplier threshold_random_uniform
      fps_threshold_multiplier multiplier_rtt_threshold : ℚ)
    (random_prob : ℚ) : ℚ × HeuristicStats :=
  let initial_bitrate := s.last_target_bitrate
  let frame_interval := s.frame_interval_average.getAverage
  let server_fps : ℚ := 1 / min frame_interval 1
  let rtt_avg_heur := s.rtt_average.getAverage
  let fps_heur : ℚ := 1 / s.frame_interarrival_average.getAverage
  let capacity_estimation_peak := s.peak_throughput_average.getAverage
  let steps_bps := steps_mbps * 1000000
  let threshold_fps := fps_threshold_multiplier * server_fps
  let threshold_rtt := frame_interval * multiplier_rtt_threshold
  let bitrate_bps := heuristicStepDecision initial_bitrate steps_bps fps_heur
    threshold_fps rtt_avg_heur threshold_rtt random_prob threshold_random_uniform
  let bitrate_bps := minmax_bitrate bitrate_bps max_bitrate_mbps min_bitrate_mbps
  let limit := capacity_multiplier * capacity_estimation_peak
  let bitrate_bps := round_down_to_nearest_multiple (min bitrate_bps limit) steps_bps
  (bitrate_bps,
   { frame_interval_s := frame_interval
     server_fps := server_fps
     steps_bps := steps_bps
     network_heur_fps := fps_heur
     rtt_avg_heur_s := rtt_avg_heur
     random_prob := random_prob
     threshold_fps := threshold_fps
     threshold_rtt_s := threshold_rtt
     threshold_u := threshold_random_uniform
     requested_bitrate_bps := bitrate_bps })

/-- Adaptive-mode clamp chain, stage 0: the measured achieved-bitrate
average scaled by the saturation multiplier (`bitrate.rs` line 357). -/
def adaptiveStage0 (s : BitrateManager) (saturation_multiplier : ℚ) : ℚ :=
  s.bitrate_average.getAverage * saturation_multiplier

/-- Stage 1: clamp to the dynamic decoder-latency ceiling (line 360). -/
def adaptiveStage1 (s : BitrateManager) (saturation_multiplier : ℚ) : ℚ :=
  min (adaptiveStage0 s saturation_multiplier) s.dynamic_max_bitrate

/-- Stage 2: clamp to the network-latency ceiling when enabled
(lines 363–369). -/
def adaptiveStage2 (s : BitrateManager) (saturation_multiplier : ℚ)
    (max_network_latency_ms : Switch ℚ) : ℚ :=
  match max_network_latency_ms with
  | .Enabled max_ms =>
    min (adaptiveStage1 s saturation_multiplier)
      (s.bitrate_average.getAverage * (max_ms / 1000)
        / s.network_latency_average.getAverage)
  | .Disabled => adaptiveStage1 s saturation_multiplier

/-- Stage 3: clamp to the encoder-latency ceiling, applied only once the
encoder saturation exceeds the configured multiplier (lines 371–383). -/
def adaptiveStage3 (s : BitrateManager) (saturation_multiplier : ℚ)
    (max_network_latency_ms : Switch ℚ)
    (encoder_latency_limiter : Switch EncoderLatencyLimiterConfig) : ℚ :=
  match encoder_latency_limiter with
  | .Enabled config =>
    let saturation := s.encoder_latency_average.getAverage / s.nominal_frame_interval
    if saturation > config.max_saturation_multiplier then
      min (adaptiveStage2 s saturation_multiplier max_network_latency_ms)
        (s.bitrate_average.getAverage * config.max_saturation_multiplier / saturation)
    else adaptiveStage2 s saturation_multiplier max_network_latency_ms
  | .Disabled => adaptiveStage2 s saturation_multiplier max_network_latency_ms

/-- Stage 4: clamp to the configured maximum when enabled (lines 385–390). -/
def adaptiveStage4 (s : BitrateManager) (saturation_multiplier : ℚ)
    (max_network_latency_ms : Switch ℚ)
    (encoder_latency_limiter : Switch EncoderLatencyLimiterConfig)
    (max_bitrate_mbps : Switch ℚ) : ℚ :=
  match max_bitrate_mbps with
  | .Enabled mx =>
    min (adaptiveStage3 s saturation_multiplier max_network_latency_ms
      encoder_latency_limiter) (mx * 1000000)
  | .Disabled =>
    adaptiveStage3 s saturation_multiplier max_network_latency_ms
      encoder_latency_limiter

/-- Stage 5: floor at the configured minimum when enabled (lines 391–396);
this is the bitrate the adaptive branch returns. -/
def adaptiveStage5 (s : BitrateManager) (saturation_multiplier : ℚ)
    (max_network_latency_ms : Switch ℚ)
    (encoder_latency_limiter : Switch EncoderLatencyLimiterConfig)
    (max_bitrate_mbps min_bitrate_mbps : Switch ℚ) : ℚ :=
  match min_bitrate_mbps with
  | .Enabled mn =>
    max (adaptiveStage4 s saturation_multiplier max_network_latency_ms
      encoder_latency_limiter max_bitrate_mbps) (mn * 1000000)
  | .Disabled =>
    adaptiveStage4 s saturation_multiplier max_network_latency_ms
      encoder_latency_limiter max_bitrate_mbps

/-- The `NominalBitrateStats` record the adaptive branch fills in
(intermediate ceiling values, for observability). -/
def adaptiveStats (s : BitrateManager) (saturation_multiplier : ℚ)
    (max_network_latency_ms : Switch ℚ)
    (encoder_latency_limiter : Switch EncoderLatencyLimiterConfig)
    (max_bitrate_mbps min_bitrate_mbps : Switch ℚ) : NominalBitrateStats :=
  let initial := s.bitrate_average.getAverage
  { NominalBitrateStats.zero with
    scaled_calculated_bps := some (adaptiveStage0 s saturation_multiplier)
    decoder_latency_limiter_bps := some s.dynamic_max_bitrate
    network_latency_limiter_bps :=
      match max_network_latency_ms with
      | .Enabled max_ms =>
        some (initial * (max_ms / 1000) / s.network_latency_average.getAverage)
      | .Disabled => none
    encoder_latency_limiter_bps :=
      match encoder_latency_limiter with
      | .Enabled config =>
        some (initial * config.max_saturation_multiplier
          / (s.encoder_latency_average.getAverage / s.nominal_frame_interval))
      | .Disabled => none
    manual_max_bps :=
      match max_bitrate_mbps with
      | .Enabled mx => some (mx * 1000000)
      | .Disabled => none
    manual_min_bps :=
      match min_bitrate_mbps with
      | .Enabled mn => some (mn * 1000000)
      | .Disabled => none }

/-- The per-mode bitrate computation of `get_encoder_params` (the `match`
at `bitrate.rs` line 233): returns the resolved bitrate, the stats record
before `requested_bps` is filled in, and the state as mutated by the
branch. -/
def computeBitrate (s : BitrateManager) (config : BitrateConfig)
    (random_prob : ℚ) : ℚ × NominalBitrateStats × BitrateManager :=
  match config.mode with
  | .ConstantMbps bitrate_mbps =>
    ((bitrate_mbps : ℚ) * 1000000, NominalBitrateStats.zero, s)
  | .SimpleHeuristic max_bitrate_mbps min_bitrate_mbps steps_mbps
      capacity_multiplier threshold_random_uniform fps_threshold_multiplier
      multiplier_rtt_threshold _ =>
    let h := simpleHeuristicBitrate s max_bitrate_mbps min_bitrate_mbps
      steps_mbps capacity_multiplier threshold_random_uniform
      fps_threshold_multiplier multiplier_rtt_threshold random_prob
    (h.1,
     { NominalBitrateStats.zero with
       manual_max_bps :=
         match max_bitrate_mbps with
         | .Enabled mx => some (mx * 1000000)
         | .Disabled => none
       manual_min_bps :=
         match min_bitrate_mbps with
         | .Enabled mn => some (mn * 1000000)
         | .Disabled => none },
     { s with heur_stats := h.2, last_target_bitrate := h.1 })
  | .Adaptive saturation_multiplier max_bitrate_mbps min_bitrate_mbps
      max_network_latency_ms encoder_latency_limiter _ =>
    (adaptiveStage5 s saturation_multiplier max_network_latency_ms
       encoder_latency_limiter max_bitrate_mbps min_bitrate_mbps,
     adaptiveStats s saturation_multiplier max_network_latency_ms
       encoder_latency_limiter max_bitrate_mbps min_bitrate_mbps,
     s)

/-- The update path of `get_encoder_params` (everything after the early
no-update return, `bitrate.rs` lines 228–419). -/
def computeUpdate (s : BitrateManager) (config : BitrateConfig)
    (now random_prob : ℚ) :
    (FfiDynamicEncoderParams × Option NominalBitrateStats) × BitrateManager :=
  let s := { s with last_update_instant := now, update_needed := false }
  let r := computeBitrate s config random_prob
  let frame_interval :=
    if config.adapt_to_framerate.isEnabled then
      r.2.2.frame_interval_average.getAverage
    else r.2.2.nominal_frame_interval
  ((⟨1, (⌊r.1⌋).toNat, 1 / min frame_interval 1⟩,
    some { r.2.1 with requested_bps := r.1 }),
   { r.2.2 with last_target_bitrate := r.1 })

/-- Model of `get_encoder_params` (`bitrate.rs` lines 190–419).  `now` is
`Instant::now()` and `random_prob` the uniform draw the heuristic branch
would sample. -/
def getEncoderParams (s : BitrateManager) (config : BitrateConfig)
    (now random_prob : ℚ) :
    (FfiDynamicEncoderParams × Option NominalBitrateStats) × BitrateManager :=
  let s := { s with update_interval_setting :=
    match config.mode with
    | .SimpleHeuristic _ _ _ _ _ _ _ ui => ui
    | _ => UPDATE_INTERVAL }
  if (s.previous_config.map fun prev => decide (config ≠ prev)).getD true then
    computeUpdate { s with previous_config := some config } config now random_prob
  else if !s.update_needed
      && (decide (now < s.last_update_instant + s.update_interval_setting)
          || (match config.mode with | .ConstantMbps _ => true | _ => false)) then
    ((⟨0, 0, 0⟩, none), s)
  else
    computeUpdate s config now random_prob

/-! Section: Helper lemmas -/

theorem updateFirstWith_fst_length {α : Type} (p : α → Bool) (f : α → α)
    (l : List α) : ((updateFirstWith p f l).1).length = l.length := by
  induction l with
  | nil => rfl
  | cons a rest ih =>
    simp only [updateFirstWith]
    split
    · simp
    · simpa using ih

theorem updateFirstWith_map_key {α : Type} (p : α → Bool) (f : α → α)
    (k : α → ℚ) (hf : ∀ a, k (f a) = k a) (l : List α) :
    ((updateFirstWith p f l).1).map k = l.map k := by
  induction l with
  | nil => rfl
  | cons a rest ih =>
    simp only [updateFirstWith]
    split
    · simp [hf]
    · simpa using ih

theorem ringEvict_length {α : Type} (m : ℕ) (l : List α)
    (h : l.length ≤ m + 1) : (ringEvict m l).length ≤ m := by
  unfold ringEvict
  split
  · simp only [List.length_dropLast]
    omega
  · omega

theorem ringEvict_nodup {α : Type} (m : ℕ) (l : List α) (k : α → ℚ)
    (h : (l.map k).Nodup) : ((ringEvict m l).map k).Nodup := by
  unfold ringEvict
  split
  · rw [List.map_dropLast]
    exact h.sublist (List.dropLast_sublist _)
  · exact h

theorem ringCreate_length {α : Type} (keyOf : α → ℚ) (ts : ℚ) (mk : α)
    (m : ℕ) (l : List α) (h : l.length ≤ m) :
    (ringCreate keyOf ts mk m l).length ≤ m := by
  unfold ringCreate
  refine ringEvict_length m _ ?_
  split
  · omega
  · simp only [List.length_cons]
    omega

theorem ringCreate_nodup {α : Type} (keyOf : α → ℚ) (ts : ℚ) (mk : α)
    (m : ℕ) (l : List α) (hk : keyOf mk = ts) (h : (l.map keyOf).Nodup) :
    ((ringCreate keyOf ts mk m l).map keyOf).Nodup := by
  unfold ringCreate
  refine ringEvict_nodup m _ keyOf ?_
  split
  · exact h
  · rename_i habs
    simp only [List.map_cons, List.nodup_cons]
    refine ⟨?_, h⟩
    intro hmem
    apply habs
    rw [List.any_eq_true]
    obtain ⟨a, ha, hka⟩ := List.mem_map.mp hmem
    exact ⟨a, ha, by simp [hk ▸ hka]⟩

theorem ringCreate_noop {α : Type} (keyOf : α → ℚ) (ts : ℚ) (mk : α)
    (m : ℕ) (l : List α) (hmem : ts ∈ l.map keyOf) (h : l.length ≤ m) :
    ringCreate keyOf ts mk m l = l := by
  unfold ringCreate
  have hany : (l.any fun a => decide (keyOf a = ts)) = true := by
    rw [List.any_eq_true]
    obtain ⟨a, ha, hka⟩ := List.mem_map.mp hmem
    exact ⟨a, ha, by simp [hka]⟩
  rw [if_pos hany]
  unfold ringEvict
  split
  · omega
  · rfl

theorem round_down_le (value step : ℚ) (h : 0 < step) :
    round_down_to_nearest_multiple value step ≤ value := by
  unfold round_down_to_nearest_multiple
  have h1 : (⌊value / step⌋ : ℚ) ≤ value / step := Int.floor_le _
  calc (⌊value / step⌋ : ℚ) * step ≤ (value / step) * step :=
        mul_le_mul_of_nonneg_right h1 (le_of_lt h)
    _ = value := div_mul_cancel₀ value (ne_of_gt h)

theorem round_down_is_multiple (value step : ℚ) :
    ∃ k : ℤ, round_down_to_nearest_multiple value step = k * step :=
  ⟨⌊value / step⌋, rfl⟩

/-! Section: Claims -/

/-- The client report of the spec's shard-loss worked example:
frame 7, shard 2, received-shard counter 9. -/
def csClaim1 : ClientStatistics :=
  { ClientStatistics.zero with
    highest_rx_frame_index := 7
    highest_rx_shard_index := 2
    rx_shard_counter := 9 }

/-- C1: evaluating the shard-loss reconstruction of `report_statistics` at
the spec's worked example — previous high-water mark (frame 5, shard 3),
shard-accounting map {5 ↦ 10, 6 ↦ 4, 7 ↦ 6}, new report (frame 7, shard 2,
rx counter 9).  The code computes `shards_from_prev = 10 − (3 − 1) = 8`
(it subtracts `prev_highest_shard − 1` instead of the `prev_highest_shard
+ 1` shards already acknowledged), so shards sent are 8 + 4 + 3 = 15 and
the reported shard loss is 15 − 9 = 6 — not the 13 and 4 the claim states. -/
theorem C1_shard_loss_worked_example :
    shardCalc 5 3 [(5, 10), (6, 4), (7, 6)] csClaim1
      = some (6, 15, 7, 2, [(7, 6)]) ∧ (6 ≠ 4 ∧ 15 ≠ 13) := by
  constructor
  · rfl
  · omega

/-- First client report of the C2 failing sequence: frame 7, shard 2,
3 shards received. -/
def csClaim2a : ClientStatistics :=
  { ClientStatistics.zero with
    target_timestamp := 1
    highest_rx_frame_index := 7
    highest_rx_shard_index := 2
    rx_shard_counter := 3 }

/-- Second (duplicate/retransmitted) client report of the C2 failing
sequence: same frame 7 and shard 2, but a received-shard counter of 5. -/
def csClaim2b : ClientStatistics :=
  { ClientStatistics.zero with
    target_timestamp := 1
    highest_rx_frame_index := 7
    highest_rx_shard_index := 2
    rx_shard_counter := 5 }

/-- C2: `report_statistics` is *not* panic-free.  Starting from a fresh
server tracker, create frame 1, deliver a client report acknowledging
(frame 7, shard 2) with 3 received shards, then deliver a second report
for the same high-water mark with a received-shard counter of 5: the
same-frame branch leaves `shards_sent = 0` and the unsigned subtraction
`shards_sent - rx_shard_counter` underflows (`0 − 5`), which panics in a
debug build instead of degrading to zero. -/
theorem C2_shard_subtraction_underflows :
    serverRun
      [ServerOp.trackingReceived 1 0,
       ServerOp.statistics csClaim2a 0,
       ServerOp.statistics csClaim2b 0]
      (ServerStatisticsManager.new 10 (1 / 72) 3 0) = none := by
  norm_num [serverRun, serverStep, reportTrackingReceived, reportStatistics,
    ringCreate, ringEvict, serverFrameKey, ServerStatisticsManager.new,
    ServerHistoryFrame.default, updateFirstWith, satSub, shardCalc, checkedSub,
    u32ToI32, i32ToU32, i32ToUsize, assocGet, csClaim2a, csClaim2b,
    ClientStatistics.zero, FULL_REPORT_INTERVAL, Int.toNat]

/-- A bitrate-manager state for the C3 counterexample: a single achieved
bitrate sample of 1 Mbps. -/
def bmClaim3 : BitrateManager :=
  { BitrateManager.new 10 72 30 0 with
    bitrate_average := ⟨0, 10, [1000000]⟩ }

/-- C3 counterexample: with the configured-minimum clamp enabled at
100 Mbps and an achieved average of 1 Mbps, the final clamp stage *raises*
the value (`f32::max`), so "every clamp stage's output is less than or
equal to its input" is false: stage 5 outputs 100 Mbps from a stage-4
input of 1 Mbps. -/
theorem C3_chain_not_monotone :
    ¬ (adaptiveStage1 bmClaim3 1 ≤ adaptiveStage0 bmClaim3 1
      ∧ adaptiveStage2 bmClaim3 1 Switch.Disabled ≤ adaptiveStage1 bmClaim3 1
      ∧ adaptiveStage3 bmClaim3 1 Switch.Disabled Switch.Disabled
          ≤ adaptiveStage2 bmClaim3 1 Switch.Disabled
      ∧ adaptiveStage4 bmClaim3 1 Switch.Disabled Switch.Disabled Switch.Disabled
          ≤ adaptiveStage3 bmClaim3 1 Switch.Disabled Switch.Disabled
      ∧ adaptiveStage5 bmClaim3 1 Switch.Disabled Switch.Disabled Switch.Disabled
          (Switch.Enabled 100)
          ≤ adaptiveStage4 bmClaim3 1 Switch.Disabled Switch.Disabled
              Switch.Disabled) := by
  intro h
  have h5 : max (adaptiveStage4 bmClaim3 1 Switch.Disabled Switch.Disabled
      Switch.Disabled) ((100 : ℚ) * 1000000)
      ≤ adaptiveStage4 bmClaim3 1 Switch.Disabled Switch.Disabled Switch.Disabled :=
    h.2.2.2.2
  have e1 : adaptiveStage4 bmClaim3 1 Switch.Disabled Switch.Disabled
      Switch.Disabled = 1000000 := by
    show min (bmClaim3.bitrate_average.getAverage * 1) bmClaim3.dynamic_max_bitrate
      = 1000000
    have e0 : bmClaim3.bitrate_average.getAverage * 1 = 1000000 := by
      norm_num [bmClaim3, BitrateManager.new, SlidingWindowAverage.getAverage]
    have ed : bmClaim3.dynamic_max_bitrate = f32Max := rfl
    rw [e0, ed]
    exact min_eq_left (by norm_num [f32Max])
  rw [e1] at h5
  have hc : (100 : ℚ) * 1000000 ≤ 1000000 :=
    le_trans (le_max_right _ _) h5
  norm_num at hc

/-- C3 as amended: through the configured maximum every adaptive clamp
stage is non-increasing, but the final configured-minimum stage is a floor
and can only *raise* the value (stage 4 ≤ stage 5). -/
theorem C3_amended_chain_monotone (s : BitrateManager)
    (saturation_multiplier : ℚ) (max_network_latency_ms : Switch ℚ)
    (encoder_latency_limiter : Switch EncoderLatencyLimiterConfig)
    (max_bitrate_mbps min_bitrate_mbps : Switch ℚ) :
    adaptiveStage1 s saturation_multiplier ≤ adaptiveStage0 s saturation_multiplier
    ∧ adaptiveStage2 s saturation_multiplier max_network_latency_ms
        ≤ adaptiveStage1 s saturation_multiplier
    ∧ adaptiveStage3 s saturation_multiplier max_network_latency_ms
        encoder_latency_limiter
        ≤ adaptiveStage2 s saturation_multiplier max_network_latency_ms
    ∧ adaptiveStage4 s saturation_multiplier max_network_latency_ms
        encoder_latency_limiter max_bitrate_mbps
        ≤ adaptiveStage3 s saturation_multiplier max_network_latency_ms
            encoder_latency_limiter
    ∧ adaptiveStage4 s saturation_multiplier max_network_latency_ms
        encoder_latency_limiter max_bitrate_mbps
        ≤ adaptiveStage5 s saturation_multiplier max_network_latency_ms
            encoder_latency_limiter max_bitrate_mbps min_bitrate_mbps := by
  refine ⟨min_le_left _ _, ?_, ?_, ?_, ?_⟩
  · unfold adaptiveStage2
    cases max_network_latency_ms with
    | Enabled v => exact min_le_left _ _
    | Disabled => exact le_refl _
  · unfold adaptiveStage3
    cases encoder_latency_limiter with
    | Enabled c =>
      dsimp only
      split
      · exact min_le_left _ _
      · exact le_refl _
    | Disabled => exact le_refl _
  · unfold adaptiveStage4
    cases max_bitrate_mbps with
    | Enabled v => exact min_le_left _ _
    | Disabled => exact le_refl _
  · unfold adaptiveStage5
    cases min_bitrate_mbps with
    | Enabled v => exact le_max_left _ _
    | Disabled => exact le_refl _

/-- C10: on a freshly constructed `BitrateManager` the first
`get_encoder_params` call always computes an update (`updated = 1`), for
every configuration — including an unchanged constant-bitrate one —
because `previous_config` starts `None` (and `update_needed` starts set). -/
theorem C10_first_call_always_updates (max_history_size : ℕ)
    (initial_framerate initial_bitrate now0 : ℚ) (config : BitrateConfig)
    (now random_prob : ℚ) :
    ((getEncoderParams (BitrateManager.new max_history_size initial_framerate
        initial_bitrate now0) config now random_prob).1.1).updated = 1 := by
  rfl

/-- The simple-heuristic result, unfolded: the step decision, min/max
clamped, capped by the capacity estimate and rounded down to a step
multiple. -/
theorem simpleHeuristicBitrate_fst (s : BitrateManager)
    (max_bitrate_mbps min_bitrate_mbps : Switch ℚ)
    (steps_mbps capacity_multiplier threshold_random_uniform
      fps_threshold_multiplier multiplier_rtt_threshold random_prob : ℚ) :
    (simpleHeuristicBitrate s max_bitrate_mbps min_bitrate_mbps steps_mbps
      capacity_multiplier threshold_random_uniform fps_threshold_multiplier
      multiplier_rtt_threshold random_prob).1
    = round_down_to_nearest_multiple
        (min
          (minmax_bitrate
            (heuristicStepDecision s.last_target_bitrate (steps_mbps * 1000000)
              (1 / s.frame_interarrival_average.getAverage)
              (fps_threshold_multiplier
                * (1 / min s.frame_interval_average.getAverage 1))
              s.rtt_average.getAverage
              (s.frame_interval_average.getAverage * multiplier_rtt_threshold)
              random_prob threshold_random_uniform)
            max_bitrate_mbps min_bitrate_mbps)
          (capacity_multiplier * s.peak_throughput_average.getAverage))
        (steps_mbps * 1000000) := rfl

/-- C4: with a positive configured step size, the bitrate returned by the
simple-heuristic branch of `get_encoder_params` is at most
`capacity_multiplier` times the peak-throughput average, and it is an
exact (integer) multiple of the step size in bits per second. -/
theorem C4_heuristic_capacity_cap_and_step_multiple (s : BitrateManager)
    (max_bitrate_mbps min_bitrate_mbps : Switch ℚ)
    (steps_mbps capacity_multiplier threshold_random_uniform
      fps_threshold_multiplier multiplier_rtt_threshold random_prob : ℚ)
    (h : 0 < steps_mbps) :
    (simpleHeuristicBitrate s max_bitrate_mbps min_bitrate_mbps steps_mbps
      capacity_multiplier threshold_random_uniform fps_threshold_multiplier
      multiplier_rtt_threshold random_prob).1
      ≤ capacity_multiplier * s.peak_throughput_average.getAverage
    ∧ ∃ k : ℤ,
      (simpleHeuristicBitrate s max_bitrate_mbps min_bitrate_mbps steps_mbps
        capacity_multiplier threshold_random_uniform fps_threshold_multiplier
        multiplier_rtt_threshold random_prob).1 = k * (steps_mbps * 1000000) := by
  rw [simpleHeuristicBitrate_fst]
  have hs : (0 : ℚ) < steps_mbps * 1000000 := by positivity
  exact ⟨le_trans (round_down_le _ _ hs) (min_le_right _ _),
    round_down_is_multiple _ _⟩

/-- Witness for C4 at a concrete state and configuration. -/
theorem C4_witness :
    (0 : ℚ) < 1
    ∧ ((simpleHeuristicBitrate (BitrateManager.new 10 72 30 0) Switch.Disabled
        Switch.Disabled 1 1 (1 / 2) 1 1 (1 / 2)).1
        ≤ 1 * (BitrateManager.new 10 72 30 0).peak_throughput_average.getAverage
      ∧ ∃ k : ℤ,
        (simpleHeuristicBitrate (BitrateManager.new 10 72 30 0) Switch.Disabled
          Switch.Disabled 1 1 (1 / 2) 1 1 (1 / 2)).1 = k * (1 * 1000000)) :=
  ⟨by norm_num,
   C4_heuristic_capacity_cap_and_step_multiple (BitrateManager.new 10 72 30 0)
     Switch.Disabled Switch.Disabled 1 1 (1 / 2) 1 1 (1 / 2) (by norm_num)⟩

/-- C8: the simple-heuristic step decision.  When the network-observed FPS
is below the FPS threshold the bitrate is stepped down by one step
regardless of the random draw; otherwise, when the RTT average exceeds the
RTT threshold it is stepped down exactly on draws `≥` the probability
threshold, and when the RTT does not exceed the threshold it is stepped up
exactly on draws `≤` the probability threshold. -/
theorem C8_heuristic_decision_rule (bitrate_bps steps_bps fps_heur
    threshold_fps rtt_avg_heur threshold_rtt random_prob
    threshold_random_uniform : ℚ) :
    (fps_heur < threshold_fps →
      heuristicStepDecision bitrate_bps steps_bps fps_heur threshold_fps
        rtt_avg_heur threshold_rtt random_prob threshold_random_uniform
      = bitrate_bps - steps_bps)
    ∧ (threshold_fps ≤ fps_heur → threshold_rtt < rtt_avg_heur →
      heuristicStepDecision bitrate_bps steps_bps fps_heur threshold_fps
        rtt_avg_heur threshold_rtt random_prob threshold_random_uniform
      = if threshold_random_uniform ≤ random_prob then bitrate_bps - steps_bps
        else bitrate_bps)
    ∧ (threshold_fps ≤ fps_heur → rtt_avg_heur ≤ threshold_rtt →
      heuristicStepDecision bitrate_bps steps_bps fps_heur threshold_fps
        rtt_avg_heur threshold_rtt random_prob threshold_random_uniform
      = if random_prob ≤ threshold_random_uniform then bitrate_bps + steps_bps
        else bitrate_bps) := by
  unfold heuristicStepDecision
  refine ⟨fun h => ?_, fun h1 h2 => ?_, fun h1 h2 => ?_⟩
  · rw [if_neg (not_le.mpr h)]
  · rw [if_pos h1, if_pos h2]
  · rw [if_pos h1, if_neg (not_lt.mpr h2)]

/-- Witness for C8: all three branches exercised at concrete inputs. -/
theorem C8_witness :
    ((1 : ℚ) < 2
      ∧ heuristicStepDecision 10 2 1 2 0 0 0 0 = 10 - 2)
    ∧ ((2 : ℚ) ≤ 3 ∧ (1 : ℚ) < 5
      ∧ heuristicStepDecision 10 2 3 2 5 1 (3 / 4) (1 / 2)
        = if (1 / 2 : ℚ) ≤ 3 / 4 then 10 - 2 else 10)
    ∧ ((2 : ℚ) ≤ 3 ∧ (1 : ℚ) ≤ 1
      ∧ heuristicStepDecision 10 2 3 2 1 1 (1 / 4) (1 / 2)
        = if (1 / 4 : ℚ) ≤ 1 / 2 then 10 + 2 else 10) :=
  ⟨⟨by norm_num, (C8_heuristic_decision_rule 10 2 1 2 0 0 0 0).1 (by norm_num)⟩,
   ⟨by norm_num, by norm_num,
    (C8_heuristic_decision_rule 10 2 3 2 5 1 (3 / 4) (1 / 2)).2.1
      (by norm_num) (by norm_num)⟩,
   ⟨by norm_num, by norm_num,
    (C8_heuristic_decision_rule 10 2 3 2 1 1 (1 / 4) (1 / 2)).2.2
      (by norm_num) (by norm_num)⟩⟩

/-- The update path always reports `updated = 1`. -/
theorem computeUpdate_updated (s : BitrateManager) (config : BitrateConfig)
    (now random_prob : ℚ) :
    ((computeUpdate s config now random_prob).1.1).updated = 1 := rfl

/-- C5: a changed configuration always forces an immediate recompute (for
every `now`, i.e. even when the minimum update interval has not elapsed),
while an unchanged constant-bitrate configuration with the update-needed
flag clear always yields the no-update sentinel (for every `now`, i.e.
never recomputes merely because the interval elapsed). -/
theorem C5_config_change_and_constant_no_update :
    (∀ (s : BitrateManager) (config : BitrateConfig) (now random_prob : ℚ)
      (prev : BitrateConfig), s.previous_config = some prev → config ≠ prev →
      ((getEncoderParams s config now random_prob).1.1).updated = 1)
    ∧ (∀ (s : BitrateManager) (config : BitrateConfig) (now random_prob : ℚ)
      (bitrate_mbps : ℕ), s.previous_config = some config →
      config.mode = BitrateMode.ConstantMbps bitrate_mbps →
      s.update_needed = false →
      (getEncoderParams s config now random_prob).1.1
        = ⟨0, 0, 0⟩
      ∧ (getEncoderParams s config now random_prob).1.2 = none) := by
  constructor
  · intro s config now random_prob prev h1 h2
    unfold getEncoderParams
    dsimp only
    rw [h1]
    simp only [Option.map_some', Option.getD_some, decide_eq_true_eq]
    rw [if_pos h2]
    exact computeUpdate_updated _ _ _ _
  · intro s config now random_prob bitrate_mbps h1 hmode hflag
    unfold getEncoderParams
    dsimp only
    rw [h1, hmode, hflag]
    simp

/-- A constant-30-Mbps configuration. -/
def cfgConst30 : BitrateConfig := ⟨BitrateMode.ConstantMbps 30, Switch.Disabled⟩

/-- A constant-40-Mbps configuration. -/
def cfgConst40 : BitrateConfig := ⟨BitrateMode.ConstantMbps 40, Switch.Disabled⟩

/-- A manager that has already seen `cfgConst30` and has a clear
update-needed flag. -/
def bmClaim5 : BitrateManager :=
  { BitrateManager.new 10 72 30 0 with
    previous_config := some cfgConst30
    update_needed := false }

/-- Witness for C5: a config change recomputes immediately at
`now = 1/10 < UPDATE_INTERVAL`; the unchanged constant config yields the
no-update sentinel even at `now = 100`, long after the interval elapsed. -/
theorem C5_witness :
    (bmClaim5.previous_config = some cfgConst30 ∧ cfgConst40 ≠ cfgConst30
      ∧ ((getEncoderParams bmClaim5 cfgConst40 (1 / 10) (1 / 2)).1.1).updated = 1)
    ∧ (bmClaim5.previous_config = some cfgConst30
      ∧ cfgConst30.mode = BitrateMode.ConstantMbps 30
      ∧ bmClaim5.update_needed = false
      ∧ (getEncoderParams bmClaim5 cfgConst30 100 (1 / 2)).1.1 = ⟨0, 0, 0⟩
      ∧ (getEncoderParams bmClaim5 cfgConst30 100 (1 / 2)).1.2 = none) :=
  ⟨⟨rfl, by decide,
    C5_config_change_and_constant_no_update.1 bmClaim5 cfgConst40 (1 / 10)
      (1 / 2) cfgConst30 rfl (by decide)⟩,
   ⟨rfl, rfl, rfl,
    (C5_config_change_and_constant_no_update.2 bmClaim5 cfgConst30 100 (1 / 2)
      30 rfl rfl rfl).1,
    (C5_config_change_and_constant_no_update.2 bmClaim5 cfgConst30 100 (1 / 2)
      30 rfl rfl rfl).2⟩⟩

theorem removeFirst_some_countP (ts : ℚ) (l : List ClientHistoryFrame)
    (r : ClientStatistics) (h : (removeFirst ts l).1 = some r) :
    (l.countP fun f => decide (clientFrameKey f = ts))
      = ((removeFirst ts l).2.countP fun f => decide (clientFrameKey f = ts)) + 1 := by
  induction l with
  | nil => simp [removeFirst] at h
  | cons a rest ih =>
    by_cases hk : clientFrameKey a = ts
    · simp [removeFirst, hk, List.countP_cons]
    · simp only [removeFirst, if_neg hk] at h ⊢
      simp only [List.countP_cons, decide_eq_true_eq, if_neg hk]
      have := ih h
      omega

theorem removeFirst_none_of_countP_zero (ts : ℚ) (l : List ClientHistoryFrame)
    (h : (l.countP fun f => decide (clientFrameKey f = ts)) = 0) :
    (removeFirst ts l).1 = none := by
  induction l with
  | nil => rfl
  | cons a rest ih =>
    simp only [List.countP_cons, decide_eq_true_eq] at h
    by_cases hk : clientFrameKey a = ts
    · simp [hk] at h
    · simp only [removeFirst, if_neg hk]
      exact ih (by omega)

/-- C7: `summary(ts)` returns a completed record at most once.  If the
completed-record queue holds at most one record for `ts` (the frame
completed at most once via `report_video_statistics`) and `summary(ts)`
returned a record, calling `summary` again with the same `ts` on the
resulting state yields "not found". -/
theorem C7_summary_at_most_once (s : ClientStatisticsManager) (ts : ℚ)
    (r : ClientStatistics)
    (hcount : (s.stats_history_buffer.countP
      fun f => decide (clientFrameKey f = ts)) ≤ 1)
    (hfirst : (summary s ts).1 = some r) :
    (summary (summary s ts).2 ts).1 = none := by
  have h1 : (removeFirst ts s.stats_history_buffer).1 = some r := hfirst
  have h2 := removeFirst_some_countP ts s.stats_history_buffer r h1
  have h3 : ((summary s ts).2.stats_history_buffer.countP
      fun f => decide (clientFrameKey f = ts)) = 0 := by
    have he : (summary s ts).2.stats_history_buffer
        = (removeFirst ts s.stats_history_buffer).2 := rfl
    rw [he]
    omega
  exact removeFirst_none_of_countP_zero ts _ h3

/-- The single completed record of the C7 witness state. -/
def chfClaim7 : ClientHistoryFrame :=
  ⟨0, 0, { ClientStatistics.zero with target_timestamp := 1 }⟩

/-- A client manager whose completed-record queue holds exactly one
record, for frame 1. -/
def csmClaim7 : ClientStatisticsManager :=
  { ClientStatisticsManager.new 10 (1 / 72) 3 0 with
    stats_history_buffer := [chfClaim7] }

/-- Witness for C7 at the concrete one-record queue. -/
theorem C7_witness :
    ((csmClaim7.stats_history_buffer.countP
        fun f => decide (clientFrameKey f = 1)) ≤ 1
      ∧ (summary csmClaim7 1).1 = some chfClaim7.client_stats
      ∧ (summary (summary csmClaim7 1).2 1).1 = none) :=
  ⟨by decide, rfl,
   C7_summary_at_most_once csmClaim7 1 chfClaim7.client_stats (by decide) rfl⟩

/-- Characterization of the drain loop: the surviving queue is the tail of
`dropWhile (≠ timestamp)` (everything before the first exact match is
popped, the match itself is popped, everything after it is untouched, and
a missing match drains the whole queue), and the average receives exactly
the sample of the first matching entry when one exists. -/
theorem drainPacketHistory_spec (timestamp network_latency : ℚ)
    (q : List (ℚ × ℕ)) (avg : SlidingWindowAverage) :
    drainPacketHistory timestamp network_latency q avg
      = ((q.dropWhile fun e => decide (e.1 ≠ timestamp)).tail,
         match q.find? (fun e => decide (e.1 = timestamp)) with
         | some e => avg.submitSample ((e.2 : ℚ) / network_latency)
         | none => avg) := by
  induction q with
  | nil => rfl
  | cons a rest ih =>
    obtain ⟨t, b⟩ := a
    by_cases h : t = timestamp
    · simp [drainPacketHistory, List.dropWhile_cons, List.find?_cons, h]
    · simp only [drainPacketHistory, if_neg h, List.dropWhile_cons,
        List.find?_cons]
      simp [h, ih]

/-- A bitrate manager whose packet-size queue holds one entry with
timestamp 10. -/
def bmClaim6 : BitrateManager :=
  { BitrateManager.new 10 72 30 0 with
    packet_sizes_bits_history := [(10, 800)] }

/-- C6 counterexample: a report with nonzero network latency for timestamp
5 — *older* than the queued entry's timestamp 10 — drains the whole queue:
the entry with the newer timestamp 10 is discarded, so "entries with
timestamps newer than the reported one are never discarded" is false. -/
theorem C6_newer_entry_discarded :
    bmClaim6.packet_sizes_bits_history = [(10, 800)]
    ∧ (5 : ℚ) < 10
    ∧ (reportFrameLatencies bmClaim6 (BitrateMode.ConstantMbps 30) 5 1 0).packet_sizes_bits_history
        = [] := by
  refine ⟨rfl, by norm_num, ?_⟩
  rfl

/-- C6 as amended: with a nonzero network latency the drain discards every
unmatched entry from the front — older *or newer* than the reported
timestamp — up to and including the first exact match (whose entry yields
the one achieved-bitrate sample); entries after the first match survive,
and with no match the whole queue is drained without a sample. -/
theorem C6_amended_drain (s : BitrateManager) (config : BitrateMode)
    (timestamp network_latency decoder_latency : ℚ)
    (h : network_latency ≠ 0) :
    (reportFrameLatencies s config timestamp network_latency
        decoder_latency).packet_sizes_bits_history
      = (s.packet_sizes_bits_history.dropWhile
          fun e => decide (e.1 ≠ timestamp)).tail
    ∧ (reportFrameLatencies s config timestamp network_latency
        decoder_latency).bitrate_average
      = match s.packet_sizes_bits_history.find?
          (fun e => decide (e.1 = timestamp)) with
        | some e => s.bitrate_average.submitSample ((e.2 : ℚ) / network_latency)
        | none => s.bitrate_average := by
  unfold reportFrameLatencies
  rw [if_neg h]
  dsimp only
  rw [drainPacketHistory_spec]
  constructor
  · cases config with
    | Adaptive a b c d e dl =>
      cases dl with
      | Enabled cfg =>
        dsimp only
        split
        · split
          · rfl
          · rfl
        · rfl
      | Disabled => rfl
    | ConstantMbps m => rfl
    | SimpleHeuristic a b c d e f g i => rfl
  · cases config with
    | Adaptive a b c d e dl =>
      cases dl with
      | Enabled cfg =>
        dsimp only
        split
        · split
          · rfl
          · rfl
        · rfl
      | Disabled => rfl
    | ConstantMbps m => rfl
    | SimpleHeuristic a b c d e f g i => rfl

/-- Witness for C6 as amended: queue `[(1,8),(2,16),(3,24)]`, report for
timestamp 2 — the older unmatched entry and the match are popped, the
newer entry survives, and the sample `16/1` is recorded. -/
def bmClaim6w : BitrateManager :=
  { BitrateManager.new 10 72 30 0 with
    packet_sizes_bits_history := [(1, 8), (2, 16), (3, 24)] }

theorem C6_amended_witness :
    (1 : ℚ) ≠ 0
    ∧ (reportFrameLatencies bmClaim6w (BitrateMode.ConstantMbps 30) 2 1 0).packet_sizes_bits_history
        = (bmClaim6w.packet_sizes_bits_history.dropWhile
            fun e => decide (e.1 ≠ 2)).tail
    ∧ (reportFrameLatencies bmClaim6w (BitrateMode.ConstantMbps 30) 2 1 0).bitrate_average
        = match bmClaim6w.packet_sizes_bits_history.find?
            (fun e => decide (e.1 = 2)) with
          | some e => bmClaim6w.bitrate_average.submitSample ((e.2 : ℚ) / 1)
          | none => bmClaim6w.bitrate_average :=
  ⟨by norm_num,
   (C6_amended_drain bmClaim6w (BitrateMode.ConstantMbps 30) 2 1 0 (by norm_num)).1,
   (C6_amended_drain bmClaim6w (BitrateMode.ConstantMbps 30) 2 1 0 (by norm_num)).2⟩

/-- The ring-buffer invariant of the claim: bounded length and at most one
entry per `target_timestamp`. -/
def clientRingInv (s : ClientStatisticsManager) : Prop :=
  s.history_buffer.length ≤ s.max_history_size
  ∧ (s.history_buffer.map clientFrameKey).Nodup

/-- Server-side ring-buffer invariant. -/
def serverRingInv (s : ServerStatisticsManager) : Prop :=
  s.history_buffer.length ≤ s.max_history_size
  ∧ (s.history_buffer.map serverFrameKey).Nodup

theorem clientRingInv_mk (s' s : ClientStatisticsManager)
    (p : ClientHistoryFrame → Bool) (f : ClientHistoryFrame → ClientHistoryFrame)
    (hh : s'.history_buffer = (updateFirstWith p f s.history_buffer).1)
    (hm : s'.max_history_size = s.max_history_size)
    (h : clientRingInv s)
    (hf : ∀ a, clientFrameKey (f a) = clientFrameKey a) : clientRingInv s' := by
  obtain ⟨hlen, hnodup⟩ := h
  unfold clientRingInv
  rw [hh, hm, updateFirstWith_fst_length,
    updateFirstWith_map_key p f clientFrameKey hf]
  exact ⟨hlen, hnodup⟩

theorem clientStep_inv (op : ClientOp) (s : ClientStatisticsManager)
    (h : clientRingInv s) : clientRingInv (clientStep op s) := by
  cases op with
  | inputAcquired ts now =>
    obtain ⟨hlen, hnodup⟩ := h
    exact ⟨ringCreate_length _ _ _ _ _ hlen, ringCreate_nodup _ _ _ _ _ rfl hnodup⟩
  | videoPacketReceived ts now =>
    exact clientRingInv_mk _ s _ _ rfl rfl h (fun a => rfl)
  | videoStatistics ts vs =>
    show clientRingInv (reportVideoStatistics s ts vs)
    unfold reportVideoStatistics
    split
    · exact clientRingInv_mk _ s _ _ rfl rfl h (fun a => rfl)
    · exact clientRingInv_mk _ s _ _ rfl rfl h (fun a => rfl)
  | frameDecoded ts now =>
    exact clientRingInv_mk _ s _ _ rfl rfl h (fun a => rfl)
  | compositorStart ts now =>
    exact clientRingInv_mk _ s _ _ rfl rfl h (fun a => rfl)
  | submit ts vq now =>
    show clientRingInv (reportSubmit s ts vq now)
    unfold reportSubmit
    split
    · exact clientRingInv_mk _ s _ _ rfl rfl h (fun a => rfl)
    · exact clientRingInv_mk _ s _ _ rfl rfl h (fun a => rfl)
  | summaryPull ts => exact h

theorem clientRun_inv (ops : List ClientOp) (s : ClientStatisticsManager)
    (h : clientRingInv s) : clientRingInv (clientRun ops s) := by
  induction ops generalizing s with
  | nil => exact h
  | cons op rest ih => exact ih _ (clientStep_inv op s h)

theorem serverRingInv_mk (s' s : ServerStatisticsManager)
    (p : ServerHistoryFrame → Bool) (f : ServerHistoryFrame → ServerHistoryFrame)
    (hh : s'.history_buffer = (updateFirstWith p f s.history_buffer).1)
    (hm : s'.max_history_size = s.max_history_size)
    (h : serverRingInv s)
    (hf : ∀ a, serverFrameKey (f a) = serverFrameKey a) : serverRingInv s' := by
  obtain ⟨hlen, hnodup⟩ := h
  unfold serverRingInv
  rw [hh, hm, updateFirstWith_fst_length,
    updateFirstWith_map_key p f serverFrameKey hf]
  exact ⟨hlen, hnodup⟩

theorem reportStatistics_inv (s : ServerStatisticsManager)
    (cs : ClientStatistics) (now : ℚ) (res : ℚ × ℚ)
    (s' : ServerStatisticsManager)
    (hr : reportStatistics s cs now = some (res, s')) (h : serverRingInv s) :
    serverRingInv s' := by
  unfold reportStatistics at hr
  split at hr
  · simp only [Option.some.injEq, Prod.mk.injEq] at hr
    obtain ⟨-, h2⟩ := hr
    subst h2
    exact h
  · dsimp only at hr
    split at hr
    · exact absurd hr (by simp)
    · simp only [Option.some.injEq, Prod.mk.injEq] at hr
      obtain ⟨-, h2⟩ := hr
      subst h2
      split
      · exact serverRingInv_mk _ s _ _ rfl rfl h (fun a => rfl)
      · exact serverRingInv_mk _ s _ _ rfl rfl h (fun a => rfl)

theorem serverStep_inv (op : ServerOp) (s s' : ServerStatisticsManager)
    (hr : serverStep op s = some s') (h : serverRingInv s) : serverRingInv s' := by
  cases op with
  | trackingReceived ts now =>
    obtain ⟨hlen, hnodup⟩ := h
    simp only [serverStep, Option.some.injEq] at hr
    subst hr
    exact ⟨ringCreate_length _ _ _ _ _ hlen, ringCreate_nodup _ _ _ _ _ rfl hnodup⟩
  | framePresent ts offset now =>
    simp only [serverStep, Option.some.injEq] at hr
    subst hr
    show serverRingInv (serverReportFramePresent s ts offset now)
    unfold serverReportFramePresent
    split
    · exact serverRingInv_mk _ s _ _ rfl rfl h (fun a => rfl)
    · exact serverRingInv_mk _ s _ _ rfl rfl h (fun a => rfl)
  | frameComposed ts offset now =>
    simp only [serverStep, Option.some.injEq] at hr
    subst hr
    exact serverRingInv_mk _ s _ _ rfl rfl h (fun a => rfl)
  | frameEncoded ts b idr now =>
    simp only [serverStep, Option.some.injEq] at hr
    subst hr
    exact serverRingInv_mk _
      { s with
        video_packets_total := s.video_packets_total + 1
        video_packets_partial_sum := s.video_packets_partial_sum + 1
        video_bytes_total := s.video_bytes_total + b
        video_bytes_partial_sum := s.video_bytes_partial_sum + b }
      _ _ rfl rfl h (fun a => rfl)
  | packetLoss =>
    simp only [serverStep, Option.some.injEq] at hr
    subst hr
    exact h
  | battery d g p =>
    simp only [serverStep, Option.some.injEq] at hr
    subst hr
    exact h
  | nominalBitrateStats st =>
    simp only [serverStep, Option.some.injEq] at hr
    subst hr
    exact h
  | statistics cs now =>
    simp only [serverStep, Option.map_eq_some'] at hr
    obtain ⟨⟨res, s''⟩, hrs, he⟩ := hr
    subst he
    exact reportStatistics_inv s cs now res _ hrs h
  | frameSent ts id spf =>
    simp only [serverStep, Option.some.injEq] at hr
    subst hr
    exact serverRingInv_mk _ s _ _ rfl rfl h (fun a => rfl)

theorem serverRun_inv (ops : List ServerOp) (s s' : ServerStatisticsManager)
    (hr : serverRun ops s = some s') (h : serverRingInv s) : serverRingInv s' := by
  induction ops generalizing s with
  | nil =>
    simp only [serverRun, Option.some.injEq] at hr
    subst hr
    exact h
  | cons op rest ih =>
    unfold serverRun at hr
    split at hr
    · rename_i s1 hs1
      exact ih s1 hr (serverStep_inv op s s1 hs1 h)
    · exact absurd hr (by simp)

theorem reportInputAcquired_noop (s : ClientStatisticsManager) (ts now : ℚ)
    (h : clientRingInv s) (hmem : ts ∈ s.history_buffer.map clientFrameKey) :
    reportInputAcquired s ts now = s := by
  unfold reportInputAcquired
  dsimp only
  rw [ringCreate_noop clientFrameKey ts _ _ _ hmem h.1]

theorem reportTrackingReceived_noop (s : ServerStatisticsManager) (ts now : ℚ)
    (h : serverRingInv s) (hmem : ts ∈ s.history_buffer.map serverFrameKey) :
    reportTrackingReceived s ts now = s := by
  unfold reportTrackingReceived
  dsimp only
  rw [ringCreate_noop serverFrameKey ts _ _ _ hmem h.1]

theorem clientStep_max (op : ClientOp) (s : ClientStatisticsManager) :
    (clientStep op s).max_history_size = s.max_history_size := by
  cases op with
  | videoStatistics ts vs =>
    show (reportVideoStatistics s ts vs).max_history_size = s.max_history_size
    unfold reportVideoStatistics
    split
    · rfl
    · rfl
  | submit ts vq now =>
    show (reportSubmit s ts vq now).max_history_size = s.max_history_size
    unfold reportSubmit
    split
    · rfl
    · rfl
  | inputAcquired ts now => rfl
  | videoPacketReceived ts now => rfl
  | frameDecoded ts now => rfl
  | compositorStart ts now => rfl
  | summaryPull ts => rfl

theorem clientRun_max (ops : List ClientOp) (s : ClientStatisticsManager) :
    (clientRun ops s).max_history_size = s.max_history_size := by
  induction ops generalizing s with
  | nil => rfl
  | cons op rest ih => rw [clientRun, ih, clientStep_max]

theorem reportStatistics_max (s : ServerStatisticsManager)
    (cs : ClientStatistics) (now : ℚ) (res : ℚ × ℚ)
    (s' : ServerStatisticsManager)
    (hr : reportStatistics s cs now = some (res, s')) :
    s'.max_history_size = s.max_history_size := by
  unfold reportStatistics at hr
  split at hr
  · simp only [Option.some.injEq, Prod.mk.injEq] at hr
    obtain ⟨-, h2⟩ := hr
    subst h2
    rfl
  · dsimp only at hr
    split at hr
    · exact absurd hr (by simp)
    · simp only [Option.some.injEq, Prod.mk.injEq] at hr
      obtain ⟨-, h2⟩ := hr
      subst h2
      split
      · rfl
      · rfl

theorem serverStep_max (op : ServerOp) (s s' : ServerStatisticsManager)
    (hr : serverStep op s = some s') :
    s'.max_history_size = s.max_history_size := by
  cases op with
  | statistics cs now =>
    simp only [serverStep, Option.map_eq_some'] at hr
    obtain ⟨⟨res, s''⟩, hrs, he⟩ := hr
    subst he
    exact reportStatistics_max s cs now res _ hrs
  | framePresent ts offset now =>
    simp only [serverStep, Option.some.injEq] at hr
    subst hr
    show (serverReportFramePresent s ts offset now).max_history_size = _
    unfold serverReportFramePresent
    split
    · rfl
    · rfl
  | trackingReceived ts now =>
    simp only [serverStep, Option.some.injEq] at hr
    subst hr
    rfl
  | frameComposed ts offset now =>
    simp only [serverStep, Option.some.injEq] at hr
    subst hr
    rfl
  | frameEncoded ts b idr now =>
    simp only [serverStep, Option.some.injEq] at hr
    subst hr
    rfl
  | packetLoss =>
    simp only [serverStep, Option.some.injEq] at hr
    subst hr
    rfl
  | battery d g p =>
    simp only [serverStep, Option.some.injEq] at hr
    subst hr
    rfl
  | nominalBitrateStats st =>
    simp only [serverStep, Option.some.injEq] at hr
    subst hr
    rfl
  | frameSent ts id spf =>
    simp only [serverStep, Option.some.injEq] at hr
    subst hr
    rfl

theorem serverRun_max (ops : List ServerOp) (s s' : ServerStatisticsManager)
    (hr : serverRun ops s = some s') :
    s'.max_history_size = s.max_history_size := by
  induction ops generalizing s with
  | nil =>
    simp only [serverRun, Option.some.injEq] at hr
    subst hr
    rfl
  | cons op rest ih =>
    unfold serverRun at hr
    split at hr
    · rename_i s1 hs1
      rw [ih s1 hr, serverStep_max op s s1 hs1]
    · exact absurd hr (by simp)

/-- C9: for every operation sequence from a fresh tracker, the history
ring never exceeds `max_history_size` entries and holds at most one entry
per `target_timestamp` (client and server); and a duplicate creation call
(`report_input_acquired` / `report_tracking_received`) for a key already
present is a complete no-op — the state, and in particular the existing
entry's captured instant, is unchanged. -/
theorem C9_ring_bounded_and_creation_idempotent :
    (∀ (m : ℕ) (nfi spf now : ℚ) (ops : List ClientOp),
      (clientRun ops (ClientStatisticsManager.new m nfi spf now)).history_buffer.length ≤ m
      ∧ ((clientRun ops (ClientStatisticsManager.new m nfi spf now)).history_buffer.map
          clientFrameKey).Nodup)
    ∧ (∀ (m : ℕ) (nfi spf now : ℚ) (ops : List ServerOp)
        (s' : ServerStatisticsManager),
      serverRun ops (ServerStatisticsManager.new m nfi spf now) = some s' →
      s'.history_buffer.length ≤ m
      ∧ (s'.history_buffer.map serverFrameKey).Nodup)
    ∧ (∀ (s : ClientStatisticsManager) (ts now : ℚ), clientRingInv s →
      ts ∈ s.history_buffer.map clientFrameKey →
      reportInputAcquired s ts now = s)
    ∧ (∀ (s : ServerStatisticsManager) (ts now : ℚ), serverRingInv s →
      ts ∈ s.history_buffer.map serverFrameKey →
      reportTrackingReceived s ts now = s) := by
  refine ⟨?_, ?_, reportInputAcquired_noop, reportTrackingReceived_noop⟩
  · intro m nfi spf now ops
    have h0 : clientRingInv (ClientStatisticsManager.new m nfi spf now) :=
      ⟨by simp [ClientStatisticsManager.new], by simp [ClientStatisticsManager.new]⟩
    have h := clientRun_inv ops _ h0
    have hm := clientRun_max ops (ClientStatisticsManager.new m nfi spf now)
    obtain ⟨h1, h2⟩ := h
    rw [hm] at h1
    exact ⟨h1, h2⟩
  · intro m nfi spf now ops s' hr
    have h0 : serverRingInv (ServerStatisticsManager.new m nfi spf now) :=
      ⟨by simp [ServerStatisticsManager.new], by simp [ServerStatisticsManager.new]⟩
    have h := serverRun_inv ops _ s' hr h0
    have hm := serverRun_max ops _ s' hr
    obtain ⟨h1, h2⟩ := h
    rw [hm] at h1
    exact ⟨h1, h2⟩

/-- Server tracker state after one creation call, for the C9 witness. -/
def ssmC9 : ServerStatisticsManager :=
  reportTrackingReceived (ServerStatisticsManager.new 2 1 3 0) 1 0

/-- Client tracker state after one creation call, for the C9 witness. -/
def csmC9 : ClientStatisticsManager :=
  reportInputAcquired (ClientStatisticsManager.new 2 1 3 0) 1 0

/-- Witness for C9: three creations into a capacity-2 client ring (with a
duplicate key), a server run, and duplicate creation calls on both
trackers. -/
theorem C9_witness :
    ((clientRun [ClientOp.inputAcquired 1 0, ClientOp.inputAcquired 1 5,
        ClientOp.inputAcquired 2 7]
        (ClientStatisticsManager.new 2 1 3 0)).history_buffer.length ≤ 2
      ∧ ((clientRun [ClientOp.inputAcquired 1 0, ClientOp.inputAcquired 1 5,
          ClientOp.inputAcquired 2 7]
          (ClientStatisticsManager.new 2 1 3 0)).history_buffer.map
            clientFrameKey).Nodup)
    ∧ (serverRun [ServerOp.trackingReceived 1 0]
        (ServerStatisticsManager.new 2 1 3 0) = some ssmC9
      ∧ ssmC9.history_buffer.length ≤ 2
      ∧ (ssmC9.history_buffer.map serverFrameKey).Nodup)
    ∧ (clientRingInv csmC9
      ∧ (1 : ℚ) ∈ csmC9.history_buffer.map clientFrameKey
      ∧ reportInputAcquired csmC9 1 99 = csmC9)
    ∧ (serverRingInv ssmC9
      ∧ (1 : ℚ) ∈ ssmC9.history_buffer.map serverFrameKey
      ∧ reportTrackingReceived ssmC9 1 99 = ssmC9) :=
  ⟨C9_ring_bounded_and_creation_idempotent.1 2 1 3 0
     [ClientOp.inputAcquired 1 0, ClientOp.inputAcquired 1 5,
      ClientOp.inputAcquired 2 7],
   ⟨rfl,
    C9_ring_bounded_and_creation_idempotent.2.1 2 1 3 0
      [ServerOp.trackingReceived 1 0] ssmC9 rfl⟩,
   ⟨⟨by decide, by decide⟩, by decide,
    C9_ring_bounded_and_creation_idempotent.2.2.1 csmC9 1 99
      ⟨by decide, by decide⟩ (by decide)⟩,
   ⟨⟨by decide, by decide⟩, by decide,
    C9_ring_bounded_and_creation_idempotent.2.2.2 ssmC9 1 99
      ⟨by decide, by decide⟩ (by decide)⟩⟩
